import Mathlib

/-!
Verification of the entity-type model of the Cedar policy validator
(`cedar-policy-validator/src/schema/entity_type.rs`).

The Rust code is shallowly embedded as executable Lean definitions:

* `ast::EntityType` (an opaque, structurally-compared, namespace-qualified
  name) is modelled as `String`;
* `SmolStr` is modelled as `String`;
* `crate::types::Type` (the opaque value type, consumed here only up to
  identity/equality) is modelled as a one-field wrapper `CedarType`;
* `std::collections::HashSet` is modelled as `Finset`;
* `BTreeMap<SmolStr, AttributeType>` is modelled as its (sorted) entry
  list, so collecting a map's own entry iterator back into a map is the
  identity;
* the protobuf-generated structs are modelled as plain structures whose
  field-level conversions for the opaque leaf types (`proto::Type`,
  `proto::EntityType`, `proto::Attributes`, `proto::OpenTag`) are lossless,
  as the spec's interchange contract requires;
* Rust `expect`-panics during decoding are modelled as `Option.none`.
-/

/-- Models `ast::EntityType`: an opaque namespace-qualified identifier with
structural equality, used as the unique key of an entity type. -/
abbrev EntityType := String

/-- Models `smol_str::SmolStr`: an immutable string. -/
abbrev SmolStr := String

/-- Models `SmolStr::new`, building a `SmolStr` from a string. -/
def smolStrOfString (s : String) : SmolStr := s

/-- Models `SmolStr::to_string`, converting a `SmolStr` back to a string. -/
def smolStrToString (s : SmolStr) : String := s

/-- Modelled from the spec: `crate::types::Type`, the value type used for
tags; opaque to this module beyond identity/equality. -/
structure CedarType where
  id : Nat
deriving DecidableEq

/-- Modelled from the spec: `crate::types::AttributeType`, an attribute's
value type together with its required/optional marker. -/
structure AttributeType where
  attrType : CedarType
  isRequired : Bool
deriving DecidableEq

/-- Modelled from the spec: `crate::types::Attributes`, an ordered mapping
from attribute name to `AttributeType`.  The underlying `BTreeMap` is
modelled as its sorted entry list `attrs`. -/
structure Attributes where
  attrs : List (SmolStr × AttributeType)
deriving DecidableEq

/-- Models `Attributes::with_attributes`, collecting an iterator of
`(name, type)` pairs into a map.  Since every call site in the embedded
module feeds it the entry iterator of an existing map, the collection is
the identity on the entry list. -/
def Attributes.with_attributes (l : List (SmolStr × AttributeType)) : Attributes :=
  ⟨l⟩

/-- Modelled from the spec: `Attributes::get_attr`, lookup of an attribute
name in the mapping. -/
def Attributes.get_attr (m : Attributes) (a : String) : Option AttributeType :=
  m.attrs.lookup a

/-- Modelled from the spec: `crate::types::OpenTag`, whether an entity type
tolerates additional undeclared attributes under partial validation. -/
inductive OpenTag where
  | OpenAttributes
  | ClosedAttributes
deriving DecidableEq

/-- Models `nonempty::NonEmpty`: a list that is non-empty by construction,
stored as a first element plus the remaining elements. -/
structure NonEmpty (α : Type) where
  head : α
  tail : List α
deriving DecidableEq

/-- Models `NonEmpty::collect`: collects a possibly-empty iterator,
returning `none` exactly when the iterator is empty. -/
def NonEmpty.collect {α : Type} : List α → Option (NonEmpty α)
  | [] => none
  | h :: t => some ⟨h, t⟩

/-- The underlying list of a `NonEmpty` value. -/
def NonEmpty.toList {α : Type} (c : NonEmpty α) : List α :=
  c.head :: c.tail

/-- Models `StandardValidatorEntityType`: the stored fields of a standard
(non-enumerated) entity type. -/
structure StandardValidatorEntityType where
  attributes : Attributes
  open_attributes : OpenTag
  tags : Option CedarType
deriving DecidableEq

/-- Models `ValidatorEntityTypeKind`: a standard entity type or an
enumerated entity type with its non-empty choice list. -/
inductive ValidatorEntityTypeKind where
  | Standard (ty : StandardValidatorEntityType)
  | Enum (choices : NonEmpty SmolStr)
deriving DecidableEq

/-- Models `ValidatorEntityType`: the per-entity-type record of the
validator, with the name, the descendant set (direct children at
construction, full closure after the transitive-closure pass), and the
kind. -/
structure ValidatorEntityType where
  name : EntityType
  descendants : Finset EntityType
  kind : ValidatorEntityTypeKind
deriving DecidableEq

/-- Models `StandardValidatorEntityType::attributes`, the iterator over the
stored attribute entries. -/
def StandardValidatorEntityType.attributesList
    (s : StandardValidatorEntityType) : List (SmolStr × AttributeType) :=
  s.attributes.attrs

/-- Models `StandardValidatorEntityType::tag_type`. -/
def StandardValidatorEntityType.tag_type
    (s : StandardValidatorEntityType) : Option CedarType :=
  s.tags

/-- Models `ValidatorEntityType::has_descendant_entity_type`: membership
test against the descendant set. -/
def ValidatorEntityType.has_descendant_entity_type
    (v : ValidatorEntityType) (ety : EntityType) : Bool :=
  decide (ety ∈ v.descendants)

/-- Models `ValidatorEntityType::attributes`: the attribute map of a
standard record (rebuilt from its entry iterator), the empty map for an
enumerated record. -/
def ValidatorEntityType.attributes (v : ValidatorEntityType) : Attributes :=
  match v.kind with
  | ValidatorEntityTypeKind.Enum _ => { attrs := [] }
  | ValidatorEntityTypeKind.Standard ty =>
      Attributes.with_attributes
        (ty.attributesList.map (fun kv => (kv.1, kv.2)))

/-- Models `ValidatorEntityType::attr`: lookup of a single attribute, always
absent for an enumerated record. -/
def ValidatorEntityType.attr (v : ValidatorEntityType) (a : String) :
    Option AttributeType :=
  match v.kind with
  | ValidatorEntityTypeKind.Enum _ => none
  | ValidatorEntityTypeKind.Standard ty => ty.attributes.get_attr a

/-- Models `ValidatorEntityType::open_attributes`: the stored flag for a
standard record, `ClosedAttributes` for an enumerated record. -/
def ValidatorEntityType.open_attributes (v : ValidatorEntityType) : OpenTag :=
  match v.kind with
  | ValidatorEntityTypeKind.Enum _ => OpenTag.ClosedAttributes
  | ValidatorEntityTypeKind.Standard ty => ty.open_attributes

/-- Models `ValidatorEntityType::tag_type`: the stored optional tag type for
a standard record, absent for an enumerated record. -/
def ValidatorEntityType.tag_type (v : ValidatorEntityType) : Option CedarType :=
  match v.kind with
  | ValidatorEntityTypeKind.Enum _ => none
  | ValidatorEntityTypeKind.Standard ty => ty.tag_type

/-- Models `TCNode::get_key` for `ValidatorEntityType`. -/
def ValidatorEntityType.get_key (v : ValidatorEntityType) : EntityType :=
  v.name

/-- Models `TCNode::add_edge_to` for `ValidatorEntityType`: insert `k` into
the descendant set. -/
def ValidatorEntityType.add_edge_to
    (v : ValidatorEntityType) (k : EntityType) : ValidatorEntityType :=
  { v with descendants := insert k v.descendants }

/-- Iteration view of a `Finset` of entity-type names, modelling the
(arbitrary-order) `HashSet` iterator as the sorted element list. -/
def finsetIter (s : Finset EntityType) : List EntityType :=
  s.sort (fun a b => a ≤ b)

/-- Models `TCNode::out_edges` for `ValidatorEntityType`: an iteration view
of the current descendant set. -/
def ValidatorEntityType.out_edges (v : ValidatorEntityType) : List EntityType :=
  finsetIter v.descendants

/-- Models `TCNode::has_edge_to` for `ValidatorEntityType`: membership test
against the descendant set. -/
def ValidatorEntityType.has_edge_to
    (v : ValidatorEntityType) (e : EntityType) : Bool :=
  decide (e ∈ v.descendants)

/-- One operation of the record's query surface and closure contract, used
to state state-evolution invariants uniformly over all operations. -/
inductive RecordOp where
  | hasDescendant (e : EntityType)
  | attributesOp
  | attrOp (a : String)
  | openAttributesOp
  | tagTypeOp
  | getKeyOp
  | addEdge (k : EntityType)
  | outEdgesOp
  | hasEdge (e : EntityType)

/-- The record state after performing one operation.  Every query takes
`&self` in the source and leaves the record unchanged; `add_edge_to` is the
single `&mut self` operation. -/
def RecordOp.apply (v : ValidatorEntityType) : RecordOp → ValidatorEntityType
  | RecordOp.hasDescendant _ => v
  | RecordOp.attributesOp => v
  | RecordOp.attrOp _ => v
  | RecordOp.openAttributesOp => v
  | RecordOp.tagTypeOp => v
  | RecordOp.getKeyOp => v
  | RecordOp.addEdge k => v.add_edge_to k
  | RecordOp.outEdgesOp => v
  | RecordOp.hasEdge _ => v

/-- Models `proto::Tag`: the wire message wrapping an optional tag type. -/
structure ProtoTag where
  optional_type : Option CedarType
deriving DecidableEq

/-- Models `proto::ValidatorEntityType`: the wire message, with the
optional type-name field, the descendant name list, the optional attribute
payload, the open/closed flag, the optional tag payload, and the
literal-choice list (empty for standard records). -/
structure ProtoValidatorEntityType where
  name : Option EntityType
  descendants : List EntityType
  attributes : Option Attributes
  open_attributes : OpenTag
  tags : Option ProtoTag
  enums : List String
deriving DecidableEq

/-- Models the `tags` decoding step of
`From<&proto::ValidatorEntityType> for ValidatorEntityType`: flatten the
doubly-optional tag payload. -/
def decodeTags (o : Option ProtoTag) : Option CedarType :=
  match o with
  | some t => t.optional_type
  | none => none

/-- Models `From<&ValidatorEntityType> for proto::ValidatorEntityType`:
encoding a record into the wire message.  An enumerated record contributes
its choice list to `enums`; a standard record leaves `enums` empty.  The
`attributes`, `open_attributes` and `tags` fields are filled from the
uniform query surface. -/
def encode (v : ValidatorEntityType) : ProtoValidatorEntityType :=
  let tags : Option ProtoTag :=
    (v.tag_type).map (fun t => { optional_type := some t })
  let enums : List String :=
    match v.kind with
    | ValidatorEntityTypeKind.Enum choices =>
        choices.toList.map smolStrToString
    | ValidatorEntityTypeKind.Standard _ => []
  { name := some v.name
    descendants := finsetIter v.descendants
    attributes := some v.attributes
    open_attributes := v.open_attributes
    tags := tags
    enums := enums }

/-- Models `From<&proto::ValidatorEntityType> for ValidatorEntityType`:
decoding a wire message into a record.  A missing type name is fatal
(`expect` in the source, `none` here).  Emptiness of `enums` selects the
kind: when `enums` is empty the record is standard and a missing attribute
payload is fatal; when `enums` is non-empty the record is enumerated and
the standard-shaped fields are ignored. -/
def decode (v : ProtoValidatorEntityType) : Option ValidatorEntityType :=
  match v.name with
  | none => none
  | some name =>
    let descendants : Finset EntityType := v.descendants.toFinset
    match v.enums with
    | [] =>
      match v.attributes with
      | none => none
      | some attrs =>
        some { name := name
               descendants := descendants
               kind := ValidatorEntityTypeKind.Standard
                 { attributes := attrs
                   open_attributes := v.open_attributes
                   tags := decodeTags v.tags } }
    | e :: es =>
      match NonEmpty.collect ((e :: es).map smolStrOfString) with
      | none => none
      | some ne =>
        some { name := name
               descendants := descendants
               kind := ValidatorEntityTypeKind.Enum ne }

/-- C1: for every record whose kind is `Enum`, regardless of its choices,
`attributes` returns the empty attribute mapping, `attr` returns absent for
every attribute name, `open_attributes` returns `ClosedAttributes`, and
`tag_type` returns absent. -/
theorem enum_kind_isolation (v : ValidatorEntityType) (choices : NonEmpty SmolStr)
    (h : v.kind = ValidatorEntityTypeKind.Enum choices) (a : String) :
    v.attributes = { attrs := [] } ∧ v.attr a = none ∧
    v.open_attributes = OpenTag.ClosedAttributes ∧ v.tag_type = none := by
  refine ⟨?_, ?_, ?_, ?_⟩ <;>
    simp [ValidatorEntityType.attributes, ValidatorEntityType.attr,
      ValidatorEntityType.open_attributes, ValidatorEntityType.tag_type, h]

/-- Concrete instance of `enum_kind_isolation` on an enumerated record with
choices `["ADMIN", "GUEST"]`. -/
theorem enum_kind_isolation_witness :
    (ValidatorEntityType.mk "E" ∅
        (ValidatorEntityTypeKind.Enum ⟨"ADMIN", ["GUEST"]⟩)).attributes = { attrs := [] } ∧
    (ValidatorEntityType.mk "E" ∅
        (ValidatorEntityTypeKind.Enum ⟨"ADMIN", ["GUEST"]⟩)).attr "a" = none ∧
    (ValidatorEntityType.mk "E" ∅
        (ValidatorEntityTypeKind.Enum ⟨"ADMIN", ["GUEST"]⟩)).open_attributes =
      OpenTag.ClosedAttributes ∧
    (ValidatorEntityType.mk "E" ∅
        (ValidatorEntityTypeKind.Enum ⟨"ADMIN", ["GUEST"]⟩)).tag_type = none :=
  enum_kind_isolation _ ⟨"ADMIN", ["GUEST"]⟩ rfl "a"

/-- C4: `has_descendant_entity_type` and `has_edge_to` are both the plain
membership test against the descendant set, so they always agree; both are
total functions into `Bool`, with `false` a legitimate result. -/
theorem descendant_query_agreement (v : ValidatorEntityType) (e : EntityType) :
    v.has_descendant_entity_type e = v.has_edge_to e ∧
    (v.has_descendant_entity_type e = true ↔ e ∈ v.descendants) ∧
    (v.has_edge_to e = true ↔ e ∈ v.descendants) := by
  refine ⟨rfl, ?_, ?_⟩ <;>
    simp [ValidatorEntityType.has_descendant_entity_type,
      ValidatorEntityType.has_edge_to]

/-- C5: `add_edge_to k` makes the descendant set the old set union `{k}`,
after which `has_edge_to k` holds and `k` is among `out_edges`; inserting an
already-present key is a no-op, and the operation is idempotent. -/
theorem add_edge_to_inserts (v : ValidatorEntityType) (k : EntityType) :
    (v.add_edge_to k).descendants = v.descendants ∪ {k} ∧
    (v.add_edge_to k).has_edge_to k = true ∧
    k ∈ (v.add_edge_to k).out_edges ∧
    (k ∈ v.descendants → v.add_edge_to k = v) ∧
    (v.add_edge_to k).add_edge_to k = v.add_edge_to k := by
  refine ⟨?_, ?_, ?_, ?_, ?_⟩
  · simp [ValidatorEntityType.add_edge_to, Finset.insert_eq, Finset.union_comm]
  · simp [ValidatorEntityType.add_edge_to, ValidatorEntityType.has_edge_to]
  · simp [ValidatorEntityType.add_edge_to, ValidatorEntityType.out_edges,
      finsetIter, Finset.mem_sort]
  · intro hk
    obtain ⟨name, descendants, kind⟩ := v
    simp_all [ValidatorEntityType.add_edge_to, Finset.insert_eq_self]
  · simp [ValidatorEntityType.add_edge_to, Finset.insert_idem]

/-- Concrete instance of `add_edge_to_inserts`: inserting the key `"B"` into
a record whose descendant set already contains `"B"` is a no-op. -/
theorem add_edge_to_inserts_witness :
    (ValidatorEntityType.mk "A" {"B"}
        (ValidatorEntityTypeKind.Enum ⟨"X", []⟩)).add_edge_to "B" =
      ValidatorEntityType.mk "A" {"B"}
        (ValidatorEntityTypeKind.Enum ⟨"X", []⟩) :=
  (add_edge_to_inserts
      (ValidatorEntityType.mk "A" {"B"} (ValidatorEntityTypeKind.Enum ⟨"X", []⟩))
      "B").2.2.2.1 (by decide)

/-- C6: every operation of the query surface and the closure contract leaves
the descendant set a superset of what it was before: queries take the record
immutably, and `add_edge_to` only inserts, so the set grows monotonically. -/
theorem descendants_monotone (v : ValidatorEntityType) (op : RecordOp) :
    v.descendants ⊆ (RecordOp.apply v op).descendants := by
  cases op with
  | addEdge k =>
      exact Finset.subset_insert k v.descendants
  | hasDescendant e => exact Finset.Subset.refl _
  | attributesOp => exact Finset.Subset.refl _
  | attrOp a => exact Finset.Subset.refl _
  | openAttributesOp => exact Finset.Subset.refl _
  | tagTypeOp => exact Finset.Subset.refl _
  | getKeyOp => exact Finset.Subset.refl _
  | outEdgesOp => exact Finset.Subset.refl _
  | hasEdge e => exact Finset.Subset.refl _

/-- C7: for a record whose kind is `Standard`, `attributes` returns the
stored attribute mapping, `attr` is exactly lookup in that mapping,
`open_attributes` returns the stored flag, and `tag_type` returns the stored
optional tag type; all four are total functions. -/
theorem standard_query_surface (v : ValidatorEntityType)
    (s : StandardValidatorEntityType)
    (h : v.kind = ValidatorEntityTypeKind.Standard s) (a : String) :
    v.attributes = s.attributes ∧
    v.attr a = s.attributes.get_attr a ∧
    v.open_attributes = s.open_attributes ∧
    v.tag_type = s.tags := by
  refine ⟨?_, ?_, ?_, ?_⟩ <;>
    simp [ValidatorEntityType.attributes, ValidatorEntityType.attr,
      ValidatorEntityType.open_attributes, ValidatorEntityType.tag_type,
      StandardValidatorEntityType.tag_type, h, Attributes.with_attributes,
      StandardValidatorEntityType.attributesList]

/-- Concrete instance of `standard_query_surface` on a standard record with
one declared attribute. -/
theorem standard_query_surface_witness :
    (ValidatorEntityType.mk "U" ∅
        (ValidatorEntityTypeKind.Standard
          ⟨⟨[("a", ⟨⟨0⟩, true⟩)]⟩, OpenTag.OpenAttributes, none⟩)).attributes =
      ⟨[("a", ⟨⟨0⟩, true⟩)]⟩ ∧
    (ValidatorEntityType.mk "U" ∅
        (ValidatorEntityTypeKind.Standard
          ⟨⟨[("a", ⟨⟨0⟩, true⟩)]⟩, OpenTag.OpenAttributes, none⟩)).attr "a" =
      Attributes.get_attr ⟨[("a", ⟨⟨0⟩, true⟩)]⟩ "a" ∧
    (ValidatorEntityType.mk "U" ∅
        (ValidatorEntityTypeKind.Standard
          ⟨⟨[("a", ⟨⟨0⟩, true⟩)]⟩, OpenTag.OpenAttributes, none⟩)).open_attributes =
      OpenTag.OpenAttributes ∧
    (ValidatorEntityType.mk "U" ∅
        (ValidatorEntityTypeKind.Standard
          ⟨⟨[("a", ⟨⟨0⟩, true⟩)]⟩, OpenTag.OpenAttributes, none⟩)).tag_type = none :=
  standard_query_surface _ ⟨⟨[("a", ⟨⟨0⟩, true⟩)]⟩, OpenTag.OpenAttributes, none⟩ rfl "a"

/-- C9: `add_edge_to` modifies only the descendant set: the record's name
and kind are unchanged, and `get_key` returns the same name before and
after the call. -/
theorem add_edge_to_frame (v : ValidatorEntityType) (k : EntityType) :
    (v.add_edge_to k).name = v.name ∧
    (v.add_edge_to k).kind = v.kind ∧
    (v.add_edge_to k).get_key = v.get_key :=
  ⟨rfl, rfl, rfl⟩

/-- Converting each `SmolStr` of a list to a `String` and back is the
identity, since both conversions preserve the text. -/
theorem map_smolStr_round_trip (t : List SmolStr) :
    List.map (smolStrOfString ∘ smolStrToString) t = t :=
  List.map_id t

/-- C2: encoding any record to the interchange representation and decoding
it back yields the original record: same name, same descendant set, and
same kind with the same stored fields (for `Standard`) or the same ordered
choice list (for `Enum`). -/
theorem interchange_round_trip (v : ValidatorEntityType) :
    decode (encode v) = some v := by
  obtain ⟨name, descendants, kind⟩ := v
  cases kind with
  | Standard s =>
    obtain ⟨attrs, openA, tags⟩ := s
    cases tags <;>
      simp [encode, decode, decodeTags, ValidatorEntityType.tag_type,
        ValidatorEntityType.attributes, ValidatorEntityType.open_attributes,
        StandardValidatorEntityType.tag_type, Attributes.with_attributes,
        StandardValidatorEntityType.attributesList, finsetIter,
        Finset.sort_toFinset]
  | Enum c =>
    obtain ⟨h, t⟩ := c
    simp [encode, decode, decodeTags, ValidatorEntityType.tag_type,
      ValidatorEntityType.attributes, ValidatorEntityType.open_attributes,
      NonEmpty.toList, NonEmpty.collect, smolStrOfString, smolStrToString,
      map_smolStr_round_trip, finsetIter, Finset.sort_toFinset]

/-- C3: emptiness of the `enums` list is the sole kind discriminator when
decoding a payload whose required type name is present: a non-empty list
yields an `Enum` record whose choices are exactly that list, with the
attribute, openness and tag fields of the payload ignored (the result does
not depend on them); an empty list yields a `Standard` record built from
those fields. -/
theorem decode_kind_discriminator (v : ProtoValidatorEntityType)
    (n : EntityType) (hname : v.name = some n) :
    (∀ e es, v.enums = e :: es →
        decode v = some
          { name := n
            descendants := v.descendants.toFinset
            kind := ValidatorEntityTypeKind.Enum
              ⟨smolStrOfString e, es.map smolStrOfString⟩ }) ∧
    (∀ attrs, v.enums = [] → v.attributes = some attrs →
        decode v = some
          { name := n
            descendants := v.descendants.toFinset
            kind := ValidatorEntityTypeKind.Standard
              { attributes := attrs
                open_attributes := v.open_attributes
                tags := decodeTags v.tags } }) := by
  constructor
  · intro e es he
    simp [decode, hname, he, NonEmpty.collect]
  · intro attrs he ha
    simp [decode, hname, he, ha]

/-- Concrete instance of `decode_kind_discriminator`: a crafted payload with
a non-empty choice list and populated attribute, openness and tag fields
decodes as `Enum`, discarding the standard-shaped fields. -/
theorem decode_kind_discriminator_witness :
    decode
      (ProtoValidatorEntityType.mk (some "N") ["D"]
        (some ⟨[("a", ⟨⟨0⟩, true⟩)]⟩) OpenTag.OpenAttributes
        (some ⟨some ⟨1⟩⟩) ["ADMIN", "GUEST"]) = some
      { name := "N"
        descendants := (["D"] : List EntityType).toFinset
        kind := ValidatorEntityTypeKind.Enum
          ⟨smolStrOfString "ADMIN", ["GUEST"].map smolStrOfString⟩ } :=
  (decode_kind_discriminator
    (ProtoValidatorEntityType.mk (some "N") ["D"]
      (some ⟨[("a", ⟨⟨0⟩, true⟩)]⟩) OpenTag.OpenAttributes
      (some ⟨some ⟨1⟩⟩) ["ADMIN", "GUEST"]) "N" rfl).1 "ADMIN" ["GUEST"] rfl

/-- C8: decoding fails, producing no record, when a required sub-field is
absent: when the type-name field is missing, and when the `enums` list is
empty (a standard record) while the attribute payload is missing; no
default is substituted in either case. -/
theorem decode_missing_required_field (v : ProtoValidatorEntityType) :
    (v.name = none → decode v = none) ∧
    (v.enums = [] → v.attributes = none → decode v = none) := by
  constructor
  · intro h
    simp [decode, h]
  · intro he ha
    cases hn : v.name with
    | none => simp [decode, hn]
    | some n => simp [decode, hn, he, ha]

/-- Concrete instances of `decode_missing_required_field`: a payload with no
type name, and a standard-shaped payload with no attribute payload, both
decode to nothing. -/
theorem decode_missing_required_field_witness :
    decode
      (ProtoValidatorEntityType.mk none [] (some ⟨[]⟩)
        OpenTag.ClosedAttributes none []) = none ∧
    decode
      (ProtoValidatorEntityType.mk (some "N") [] none
        OpenTag.ClosedAttributes none []) = none :=
  ⟨(decode_missing_required_field
      (ProtoValidatorEntityType.mk none [] (some ⟨[]⟩)
        OpenTag.ClosedAttributes none [])).1 rfl,
   (decode_missing_required_field
      (ProtoValidatorEntityType.mk (some "N") [] none
        OpenTag.ClosedAttributes none [])).2 rfl rfl⟩

/-- C10: an empty enumerated type is unrepresentable: every `Enum` record's
choice list is non-empty by construction; collecting any non-empty list into
the non-empty container succeeds; and decoding a payload with a present type
name and a non-empty `enums` list always succeeds in building the `Enum`
record (the failure branch of the collection is unreachable there). -/
theorem enum_nonempty_unrepresentable :
    (∀ (c : NonEmpty SmolStr), c.toList ≠ []) ∧
    (∀ (l : List String), l ≠ [] →
        ∃ ne, NonEmpty.collect (l.map smolStrOfString) = some ne) ∧
    (∀ (p : ProtoValidatorEntityType) (n : EntityType),
        p.name = some n → p.enums ≠ [] →
        ∃ ne, decode p = some
          { name := n
            descendants := p.descendants.toFinset
            kind := ValidatorEntityTypeKind.Enum ne }) := by
  refine ⟨?_, ?_, ?_⟩
  · intro c
    exact List.cons_ne_nil c.head c.tail
  · intro l hl
    cases l with
    | nil => exact absurd rfl hl
    | cons h t => exact ⟨⟨smolStrOfString h, t.map smolStrOfString⟩, rfl⟩
  · intro p n hname henums
    cases he : p.enums with
    | nil => exact absurd he henums
    | cons e es =>
      refine ⟨⟨smolStrOfString e, es.map smolStrOfString⟩, ?_⟩
      simp [decode, hname, he, NonEmpty.collect]

/-- Concrete instance of `enum_nonempty_unrepresentable`: decoding a payload
with one enum choice succeeds in building an `Enum` record. -/
theorem enum_nonempty_unrepresentable_witness :
    ∃ ne, decode
      (ProtoValidatorEntityType.mk (some "N") [] none
        OpenTag.ClosedAttributes none ["A"]) = some
      { name := "N"
        descendants := (([] : List EntityType)).toFinset
        kind := ValidatorEntityTypeKind.Enum ne } :=
  enum_nonempty_unrepresentable.2.2
    (ProtoValidatorEntityType.mk (some "N") [] none
      OpenTag.ClosedAttributes none ["A"]) "N" rfl
    (List.cons_ne_nil "A" [])
